import Mathlib

/-!
# golang-redis-clone: the server's command loop, embedded in Lean

Source: `src/server/server.go`.

Conventions of the embedding.

* A Go `string` / `[]byte` is a `List Byte`, a byte being a natural number
  (`Byte := Nat`); string literals of the source are written `str "..."`.
* A `net.Conn` is an opaque identity (`Conn := Nat`); `client == conn` is
  equality of identities.
* A Go `map` is an association list (`mapGet`, `mapSet`, `mapDelete`); the
  iteration order of a Go map is unspecified, the list order stands for one.
* A write to a socket is recorded as a pair `(conn, bytes)`; a handler returns
  the new state together with the writes it performed, in order.  Write
  errors are only logged by the source and change nothing, so they are not
  modelled; neither is logging.
* `none` in a handler's result is a Go runtime panic (index out of range).
  No `recover` exists in the source, so a panic in a handler goroutine
  terminates the process.
* Each handler is run to completion on the state (the goroutine started by
  `go handleX(...)` is taken as atomic); interleavings are not modelled.
* `net.Dial` is an input: `dial addr = some c` is a successful connection
  with identity `c`, `none` a failed attempt.
* The `clients` map (filled on accept, emptied on close, read by no
  handler) is left out.
-/

namespace RedisClone

abbrev Byte := Nat
abbrev Conn := Nat

/-- Bytes of an ASCII string literal of the source. -/
def str (s : String) : List Byte := s.toList.map Char.toNat

/-! ## Constants -/

def MAX_BUFFER_SIZE : Nat := 1024
def COMMAND_SET : List Byte := str "SET"
def COMMAND_GET : List Byte := str "GET"
def COMMAND_DEL : List Byte := str "DEL"
def COMMAND_NOTIFY : List Byte := str "NOTIFY"
def COMMAND_PING : List Byte := str "PING"
def COMMAND_PONG : List Byte := str "PONG"
def COMMAND_QUIT : List Byte := str "QUIT"
def COMMAND_KEYS : List Byte := str "KEYS"
def COMMAND_ADD_REPLICA : List Byte := str "ADDREPLICA"

/-! ## The two functions of package `strings` the server uses -/

namespace strings

/-- Go `strings.Split(s, sep)` for a one-byte separator (the source only
calls it with `" "`): the pieces of `s` between consecutive separators, so
the result has one more element than `s` has separators. -/
def Split : List Byte → Byte → List (List Byte)
  | [], _ => [[]]
  | b :: rest, sep =>
    if b = sep then [] :: Split rest sep
    else
      match Split rest sep with
      | [] => [[b]]
      | t :: ts => (b :: t) :: ts

/-- Go `strings.Join(elems, sep)`. -/
def Join : List (List Byte) → List Byte → List Byte
  | [], _ => []
  | [a], _ => a
  | a :: b :: rest, sep => a ++ sep ++ Join (b :: rest) sep

end strings

/-! ## Go maps as association lists -/

/-- Lookup `m[k]` with its `exists` flag: `none` is "not present". -/
def mapGet {ν : Type} : List (List Byte × ν) → List Byte → Option ν
  | [], _ => none
  | (k', v) :: rest, k => if k' = k then some v else mapGet rest k

/-- Removal `delete(m, k)`. -/
def mapDelete {ν : Type} (m : List (List Byte × ν)) (k : List Byte) :
    List (List Byte × ν) :=
  m.filter (fun p => decide (p.1 ≠ k))

/-- Assignment `m[k] = v`. -/
def mapSet {ν : Type} (m : List (List Byte × ν)) (k : List Byte) (v : ν) :
    List (List Byte × ν) :=
  (k, v) :: mapDelete m k

/-! ## Data model -/

structure Entry where
  Key : List Byte
  Value : List Byte
  DataType : List Byte
deriving DecidableEq, Repr

/-- The process-wide maps `entries`, `notifications` and `replicas`. -/
structure State where
  entries : List (List Byte × Entry)
  notifications : List (List Byte × List Conn)
  replicas : List (List Byte × Conn)
deriving DecidableEq, Repr

abbrev Write := Conn × List Byte

/-- What a handler leaves behind: the state and the socket writes it made. -/
structure Result where
  st : State
  writes : List Write
deriving DecidableEq, Repr

/-- The byte strings written to connection `c`, in order. -/
def writesTo (c : Conn) (ws : List Write) : List (List Byte) :=
  (ws.filter (fun w => decide (w.1 = c))).map (fun w => w.2)

/-- The connections registered as subscribers of `k`, one occurrence per
registration, in registration order: the slice `notifications[k]`. -/
def subscribers (st : State) (k : List Byte) : List Conn :=
  (mapGet st.notifications k).getD []

/-! ## Handlers -/

def handlePing (st : State) (conn : Conn) : Option Result :=
  some ⟨st, [(conn, COMMAND_PONG)]⟩

/-- The `switch value[0]` of `handleSet`. -/
def inferDataType (c0 : Byte) : List Byte :=
  if c0 = 123 ∨ c0 = 91 ∨ c0 = 34 then str "json"
  else if c0 = 48 ∨ c0 = 49 ∨ c0 = 50 ∨ c0 = 51 ∨ c0 = 52 ∨ c0 = 53 ∨ c0 = 54
      ∨ c0 = 55 ∨ c0 = 56 ∨ c0 = 57 then str "number"
  else str "string"

/-- The loop `for _, client := range clients` of `handleSet`. -/
def notifyClients (conn : Conn) (key value : List Byte) : List Conn → List Write
  | [] => []
  | client :: rest =>
    if client = conn then notifyClients conn key value rest
    else (client, str "Key " ++ key ++ str " updated to " ++ value)
      :: notifyClients conn key value rest

/-- The block `if existingEntry, exists := entries[key]; exists` of `handleSet`. -/
def notifySubscribers (st : State) (conn : Conn) (key value : List Byte) : List Write :=
  match mapGet st.entries key with
  | some existingEntry =>
    if existingEntry.Value ≠ value then
      match mapGet st.notifications key with
      | some clients => notifyClients conn key value clients
      | none => []
    else []
  | none => []

def handleSet (st : State) (conn : Conn) (args : List (List Byte)) : Option Result :=
  if args.length < 3 then
    some ⟨st, [(conn, str "Error: SET command requires a key and a value")]⟩
  else do
    let key ← args[1]?
    let value := strings.Join (args.drop 2) (str " ")
    let c0 ← value[0]?
    let dataType := inferDataType c0
    let pushes := notifySubscribers st conn key value
    some ⟨{ st with entries := mapSet st.entries key ⟨key, value, dataType⟩ },
      pushes ++ [(conn, str "OK")]⟩

def handleGet (st : State) (conn : Conn) (args : List (List Byte)) : Option Result :=
  if args.length < 2 then
    some ⟨st, [(conn, str "Error: GET command requires a key")]⟩
  else do
    let key ← args[1]?
    match mapGet st.entries key with
    | none => some ⟨st, [(conn, str "Key not found")]⟩
    | some entry => some ⟨st, [(conn, entry.Value)]⟩

def handleDel (st : State) (conn : Conn) (args : List (List Byte)) : Option Result :=
  if args.length < 2 then
    some ⟨st, [(conn, str "Error: DEL command requires a key")]⟩
  else do
    let key ← args[1]?
    match mapGet st.entries key with
    | none => some ⟨st, [(conn, str "Key not found")]⟩
    | some _ =>
      some ⟨{ st with entries := mapDelete st.entries key }, [(conn, str "OK")]⟩

/-- The keys are listed in the order of the association list (Go leaves the
order of `range entries` unspecified). -/
def handleGetKeys (st : State) (conn : Conn) : Option Result :=
  let keys := st.entries.map (fun p => p.1)
  let response := strings.Join keys (str "\n")
  let response := if response = [] then str "No keys found" else response
  some ⟨st, [(conn, response)]⟩

def handleNotify (st : State) (conn : Conn) (args : List (List Byte)) : Option Result :=
  if args.length < 2 then
    some ⟨st, [(conn, str "Error: NOTIFY command requires a key to subscribe to")]⟩
  else do
    let key ← args[1]?
    match mapGet st.entries key with
    | none =>
      some ⟨st, [(conn, str "Key " ++ key ++ str " does not exist, cannot subscribe")]⟩
    | some _ =>
      let notifications :=
        match mapGet st.notifications key with
        | none => mapSet st.notifications key []
        | some _ => st.notifications
      let cur := (mapGet notifications key).getD []
      some ⟨{ st with notifications := mapSet notifications key (cur ++ [conn]) }, []⟩

def handleAddReplica (dial : List Byte → Option Conn) (st : State) (conn : Conn)
    (args : List (List Byte)) : Option Result :=
  if args.length < 2 then
    some ⟨st, [(conn, str "Error: ADDREPLICA command requires a host and port")]⟩
  else do
    let hostPort ← args[1]?
    match dial hostPort with
    | none => some ⟨st, [(conn, str "Error connecting to replica " ++ hostPort)]⟩
    | some replicaConn =>
      match mapGet st.replicas hostPort with
      | some _ => some ⟨st, [(conn, str "Replica at " ++ hostPort ++ str " already exists")]⟩
      | none => some ⟨{ st with replicas := mapSet st.replicas hostPort replicaConn }, []⟩

/-! ## The command loop `handleClient` -/

/-- The `switch action` of `handleClient`; an unknown command is only logged. -/
def dispatch (dial : List Byte → Option Conn) (st : State) (conn : Conn)
    (splittedMsg : List (List Byte)) (action : List Byte) : Option Result :=
  if action = COMMAND_PING then handlePing st conn
  else if action = COMMAND_SET then handleSet st conn splittedMsg
  else if action = COMMAND_GET then handleGet st conn splittedMsg
  else if action = COMMAND_DEL then handleDel st conn splittedMsg
  else if action = COMMAND_KEYS then handleGetKeys st conn
  else if action = COMMAND_NOTIFY then handleNotify st conn splittedMsg
  else if action = COMMAND_ADD_REPLICA then handleAddReplica dial st conn splittedMsg
  else some ⟨st, []⟩

/-- What `handleClient` does with one message `msg := string(buffer[:n])`:
`splittedMsg := strings.Split(msg, " ")`, `action := splittedMsg[0]`, then the
`switch`. -/
def handleMessage (dial : List Byte → Option Conn) (st : State) (conn : Conn)
    (msg : List Byte) : Option Result := do
  let splittedMsg := strings.Split msg 32
  let action ← splittedMsg[0]?
  dispatch dial st conn splittedMsg action

/-- Model of `buffer := make([]byte, MAX_BUFFER_SIZE); n, err := conn.Read(buffer)`
when the read delivers the bytes `received`: at most `MAX_BUFFER_SIZE` of
them are stored at the start of a zeroed buffer. -/
def connRead (received : List Byte) : Nat × List Byte :=
  let n := min received.length MAX_BUFFER_SIZE
  (n, received.take MAX_BUFFER_SIZE ++ List.replicate (MAX_BUFFER_SIZE - n) 0)

/-- One turn of the `for` loop of `handleClient`. -/
inductive LoopStep where
  /-- The loop returned (a read error or `n == 0`): the connection is closed. -/
  | closed
  /-- The turn ran: `handler` is the outcome of the handler goroutine
  (`none` when it panics), `changes` the records the loop itself sends on
  the `changes` channel after starting the handler. -/
  | continued (handler : Option Result) (changes : List (List Byte))
deriving DecidableEq, Repr

def handleClientIter (dial : List Byte → Option Conn) (st : State) (conn : Conn)
    (received : List Byte) : LoopStep :=
  let (n, buffer) := connRead received
  if n = 0 then LoopStep.closed
  else
    let n := if n % 65536 > MAX_BUFFER_SIZE then MAX_BUFFER_SIZE else n
    let msg := buffer.take n
    let splittedMsg := strings.Split msg 32
    match splittedMsg[0]? with
    | none => LoopStep.continued none []
    | some action =>
      LoopStep.continued (dispatch dial st conn splittedMsg action)
        (if action = COMMAND_SET ∨ action = COMMAND_DEL then [buffer] else [])

/-- The loop of `doReplication` for one change record: it is written to every
registered replica. -/
def replicateChange (replicas : List (List Byte × Conn)) (change : List Byte) : List Write :=
  replicas.map (fun r => (r.2, change))

/-- Go `doReplication`, draining the records in the order they were sent. -/
def doReplication (replicas : List (List Byte × Conn)) :
    List (List Byte) → List Write
  | [] => []
  | change :: rest =>
    (if replicas.length > 0 then replicateChange replicas change else [])
      ++ doReplication replicas rest

/-! ## Lemmas on the string functions and the maps -/

theorem str_space : str " " = [32] := rfl
theorem str_SET_sp : str "SET " = [83, 69, 84, 32] := rfl
theorem str_GET_sp : str "GET " = [71, 69, 84, 32] := rfl
theorem str_DEL_sp : str "DEL " = [68, 69, 76, 32] := rfl
theorem str_NOTIFY_sp : str "NOTIFY " = [78, 79, 84, 73, 70, 89, 32] := rfl
theorem str_ADDREPLICA_sp :
    str "ADDREPLICA " = [65, 68, 68, 82, 69, 80, 76, 73, 67, 65, 32] := rfl
theorem COMMAND_SET_eq : COMMAND_SET = [83, 69, 84] := rfl
theorem COMMAND_GET_eq : COMMAND_GET = [71, 69, 84] := rfl
theorem COMMAND_DEL_eq : COMMAND_DEL = [68, 69, 76] := rfl
theorem COMMAND_NOTIFY_eq : COMMAND_NOTIFY = [78, 79, 84, 73, 70, 89] := rfl
theorem COMMAND_PING_eq : COMMAND_PING = [80, 73, 78, 71] := rfl
theorem COMMAND_KEYS_eq : COMMAND_KEYS = [75, 69, 89, 83] := rfl
theorem COMMAND_ADD_REPLICA_eq :
    COMMAND_ADD_REPLICA = [65, 68, 68, 82, 69, 80, 76, 73, 67, 65] := rfl

theorem Split_ne_nil (s : List Byte) (sep : Byte) : strings.Split s sep ≠ [] := by
  induction s with
  | nil => simp [strings.Split]
  | cons b rest ih =>
    unfold strings.Split
    split
    · simp
    · split <;> simp

theorem Split_cons_ne (b : Byte) (rest : List Byte) (sep : Byte) (h : b ≠ sep) :
    strings.Split (b :: rest) sep
      = (b :: (strings.Split rest sep).headD []) :: (strings.Split rest sep).tail := by
  have hne := Split_ne_nil rest sep
  rw [strings.Split]
  rw [if_neg h]
  cases hs : strings.Split rest sep with
  | nil => exact absurd hs hne
  | cons t ts => simp

theorem Split_cons_eq (rest : List Byte) (sep : Byte) :
    strings.Split (sep :: rest) sep = [] :: strings.Split rest sep := by
  rw [strings.Split]
  simp

/-- A piece that holds no separator is split off whole. -/
theorem Split_append (a b : List Byte) (sep : Byte) (h : sep ∉ a) :
    strings.Split (a ++ sep :: b) sep = a :: strings.Split b sep := by
  induction a with
  | nil => simpa using Split_cons_eq b sep
  | cons x xs ih =>
    have hx : x ≠ sep := fun e => h (by simp [e])
    have hxs : sep ∉ xs := fun m => h (by simp [m])
    rw [List.cons_append, Split_cons_ne _ _ _ hx, ih hxs]
    simp

theorem Split_no_sep (a : List Byte) (sep : Byte) (h : sep ∉ a) :
    strings.Split a sep = [a] := by
  induction a with
  | nil => simp [strings.Split]
  | cons x xs ih =>
    have hx : x ≠ sep := fun e => h (by simp [e])
    have hxs : sep ∉ xs := fun m => h (by simp [m])
    rw [Split_cons_ne _ _ _ hx, ih hxs]
    simp

/-- Joining the pieces with the separator gives the string back. -/
theorem Join_Split (s : List Byte) (sep : Byte) :
    strings.Join (strings.Split s sep) [sep] = s := by
  induction s with
  | nil => simp [strings.Split, strings.Join]
  | cons b rest ih =>
    have hne := Split_ne_nil rest sep
    by_cases hb : b = sep
    · subst hb
      rw [Split_cons_eq]
      cases hs : strings.Split rest b with
      | nil => exact absurd hs hne
      | cons t ts =>
        rw [hs] at ih
        simp [strings.Join, ih]
    · rw [Split_cons_ne _ _ _ hb]
      cases hs : strings.Split rest sep with
      | nil => exact absurd hs hne
      | cons t ts =>
        rw [hs] at ih
        cases ts with
        | nil =>
          simp [strings.Join] at ih ⊢
          exact ih
        | cons u us =>
          simp [strings.Join] at ih ⊢
          exact ih

/-- No piece holds a separator. -/
theorem Split_mem_no_sep (s : List Byte) (sep : Byte) :
    ∀ t ∈ strings.Split s sep, sep ∉ t := by
  induction s with
  | nil => simp [strings.Split]
  | cons b rest ih =>
    have hne := Split_ne_nil rest sep
    by_cases hb : b = sep
    · subst hb
      rw [Split_cons_eq]
      intro t ht
      rcases List.mem_cons.mp ht with h | h
      · simp [h]
      · exact ih t h
    · rw [Split_cons_ne _ _ _ hb]
      cases hs : strings.Split rest sep with
      | nil => exact absurd hs hne
      | cons u us =>
        rw [hs] at ih
        intro t ht
        simp only [List.headD_cons, List.tail_cons, List.mem_cons] at ht
        rcases ht with h | h
        · subst h
          have hu := ih u (by simp)
          intro hm
          rcases List.mem_cons.mp hm with e | e
          · exact hb e.symm
          · exact hu e
        · exact ih t (by simp [h])

theorem mapGet_mapDelete {ν : Type} (m : List (List Byte × ν)) (k k' : List Byte) :
    mapGet (mapDelete m k) k' = if k' = k then none else mapGet m k' := by
  induction m with
  | nil => simp [mapDelete, mapGet]
  | cons p rest ih =>
    obtain ⟨pk, pv⟩ := p
    unfold mapDelete at ih ⊢
    by_cases h1 : pk = k
    · subst h1
      by_cases h2 : k' = pk
      · subst h2
        simpa [mapGet] using ih
      · have h3 : ¬ pk = k' := fun e => h2 e.symm
        simpa [mapGet, h2, h3] using ih
    · by_cases h2 : k' = k
      · subst h2
        simpa [List.filter_cons, h1, mapGet] using ih
      · by_cases h3 : pk = k'
        · simp [List.filter_cons, h1, mapGet, h2, h3]
        · simpa [List.filter_cons, h1, mapGet, h2, h3] using ih

theorem mapGet_mapSet {ν : Type} (m : List (List Byte × ν)) (k k' : List Byte) (v : ν) :
    mapGet (mapSet m k v) k' = if k' = k then some v else mapGet m k' := by
  unfold mapSet
  by_cases h : k' = k
  · subst h
    simp [mapGet]
  · have h' : ¬ k = k' := fun e => h e.symm
    simp [mapGet, h, h', mapGet_mapDelete]

/-- The loop over the subscribers writes to every registration but the writer
itself. -/
theorem notifyClients_eq (conn : Conn) (key value : List Byte) (clients : List Conn) :
    notifyClients conn key value clients
      = (clients.filter (fun s => decide (s ≠ conn))).map
          (fun s => (s, str "Key " ++ key ++ str " updated to " ++ value)) := by
  induction clients with
  | nil => simp [notifyClients]
  | cons x xs ih =>
    by_cases h : x = conn
    · simp [notifyClients, h, ih]
    · simp [notifyClients, h, ih, List.filter_cons]

/-- The message `SET k v`. -/
theorem split_SET (k v : List Byte) (hk : 32 ∉ k) :
    strings.Split (str "SET " ++ k ++ str " " ++ v) 32
      = COMMAND_SET :: k :: strings.Split v 32 := by
  have h0 : (32 : Byte) ∉ ([83, 69, 84] : List Byte) := by decide
  have e : str "SET " ++ k ++ str " " ++ v = [83, 69, 84] ++ 32 :: (k ++ 32 :: v) := by
    simp [str_SET_sp, str_space]
  rw [e, Split_append _ _ _ h0, Split_append _ _ _ hk, COMMAND_SET_eq]

theorem handleMessage_SET (dial : List Byte → Option Conn) (st : State) (c : Conn)
    (k v : List Byte) (hk : 32 ∉ k) (hv : v ≠ []) :
    handleMessage dial st c (str "SET " ++ k ++ str " " ++ v)
      = some ⟨{ st with entries := mapSet st.entries k ⟨k, v, inferDataType (v.head hv)⟩ },
          notifySubscribers st c k v ++ [(c, str "OK")]⟩ := by
  have hne := Split_ne_nil v 32
  have hj : strings.Join (strings.Split v 32) (str " ") = v := by
    rw [str_space]; exact Join_Split v 32
  obtain ⟨b, bs, rfl⟩ := List.exists_cons_of_ne_nil hv
  unfold handleMessage
  rw [split_SET k _ hk]
  cases hs : strings.Split (b :: bs) 32 with
  | nil => exact absurd hs hne
  | cons t ts =>
    rw [hs] at hj
    simp [dispatch, COMMAND_SET_eq, COMMAND_PING_eq, handleSet, hj]

/-- A message made of a command name, a space and one space-free argument. -/
theorem split_one_arg (cmd k : List Byte) (hc : 32 ∉ cmd) (hk : 32 ∉ k) :
    strings.Split (cmd ++ 32 :: k) 32 = [cmd, k] := by
  rw [Split_append _ _ _ hc, Split_no_sep _ _ hk]

theorem handleMessage_GET (dial : List Byte → Option Conn) (st : State) (c : Conn)
    (k : List Byte) (hk : 32 ∉ k) :
    handleMessage dial st c (str "GET " ++ k)
      = some ⟨st, [(c, match mapGet st.entries k with
                        | some entry => entry.Value
                        | none => str "Key not found")]⟩ := by
  have h0 : (32 : Byte) ∉ ([71, 69, 84] : List Byte) := by decide
  have e : str "GET " ++ k = [71, 69, 84] ++ 32 :: k := by simp [str_GET_sp]
  unfold handleMessage
  rw [e, split_one_arg _ _ h0 hk]
  cases hm : mapGet st.entries k <;>
    simp [dispatch, COMMAND_SET_eq, COMMAND_PING_eq, COMMAND_GET_eq, handleGet, hm]

theorem handleMessage_DEL (dial : List Byte → Option Conn) (st : State) (c : Conn)
    (k : List Byte) (hk : 32 ∉ k) :
    handleMessage dial st c (str "DEL " ++ k)
      = match mapGet st.entries k with
        | some _ => some ⟨{ st with entries := mapDelete st.entries k }, [(c, str "OK")]⟩
        | none => some ⟨st, [(c, str "Key not found")]⟩ := by
  have h0 : (32 : Byte) ∉ ([68, 69, 76] : List Byte) := by decide
  have e : str "DEL " ++ k = [68, 69, 76] ++ 32 :: k := by simp [str_DEL_sp]
  unfold handleMessage
  rw [e, split_one_arg _ _ h0 hk]
  cases hm : mapGet st.entries k <;>
    simp [dispatch, COMMAND_SET_eq, COMMAND_PING_eq, COMMAND_GET_eq, COMMAND_DEL_eq, handleDel,
      hm]

theorem writesTo_notifySubscribers (st : State) (c : Conn) (k v : List Byte) :
    writesTo c (notifySubscribers st c k v) = [] := by
  unfold notifySubscribers
  split
  · split
    · split
      · rw [notifyClients_eq]
        simp [writesTo, List.filter_map, List.filter_filter]
      · rfl
    · rfl
  · rfl

/-- C1. SET/GET round trip: for every state, every key `k` holding no space
and every non-empty value `v` (spaces allowed anywhere in it), the message
`SET k v` is answered `OK` on the issuing connection, and `GET k` on the
resulting state, issued from any connection, is answered with exactly the
bytes of `v`. -/
theorem C1_set_get_roundtrip (dial : List Byte → Option Conn) (st : State) (c c' : Conn)
    (k v : List Byte) (hk : 32 ∉ k) (hv : v ≠ []) :
    ∃ r, handleMessage dial st c (str "SET " ++ k ++ str " " ++ v) = some r
      ∧ writesTo c r.writes = [str "OK"]
      ∧ handleMessage dial r.st c' (str "GET " ++ k) = some ⟨r.st, [(c', v)]⟩ := by
  refine ⟨_, handleMessage_SET dial st c k v hk hv, ?_, ?_⟩
  · simp [writesTo, List.filter_append]
    have := writesTo_notifySubscribers st c k v
    simpa [writesTo] using this
  · rw [handleMessage_GET _ _ _ _ hk]
    simp [mapGet_mapSet]

theorem C1_set_get_roundtrip_witness :
    ∃ r, handleMessage (fun _ => none) ⟨[], [], []⟩ 1
          (str "SET " ++ str "key1" ++ str " " ++ str " a  b") = some r
      ∧ writesTo 1 r.writes = [str "OK"]
      ∧ handleMessage (fun _ => none) r.st 2 (str "GET " ++ str "key1")
          = some ⟨r.st, [(2, str " a  b")]⟩ :=
  C1_set_get_roundtrip (fun _ => none) ⟨[], [], []⟩ 1 2 (str "key1") (str " a  b")
    (by decide) (by decide)

/-- C2. DEL postcondition: for every state and every key `k` holding no
space, `DEL k` is answered `OK` exactly when `k` is stored and
`Key not found` exactly when it is not; afterwards the store has no entry
for `k`, every other key is looked up as before, and the subscription and
replica maps are untouched.  Hence `SET k v`, `DEL k`, `GET k` ends with
`Key not found`, and two consecutive `DEL k` on an absent key are both
answered `Key not found` and leave the state as it was. -/
theorem C2_del_postcondition (dial : List Byte → Option Conn) (st : State)
    (c c' c'' : Conn) (k v : List Byte) (hk : 32 ∉ k) (hv : v ≠ []) :
    (∃ r, handleMessage dial st c (str "DEL " ++ k) = some r
      ∧ (r.writes = [(c, str "OK")] ↔ (mapGet st.entries k).isSome = true)
      ∧ (r.writes = [(c, str "Key not found")] ↔ mapGet st.entries k = none)
      ∧ mapGet r.st.entries k = none
      ∧ (∀ k', k' ≠ k → mapGet r.st.entries k' = mapGet st.entries k')
      ∧ r.st.notifications = st.notifications ∧ r.st.replicas = st.replicas)
    ∧ (∃ r1 r2, handleMessage dial st c (str "SET " ++ k ++ str " " ++ v) = some r1
      ∧ handleMessage dial r1.st c' (str "DEL " ++ k) = some r2
      ∧ r2.writes = [(c', str "OK")]
      ∧ handleMessage dial r2.st c'' (str "GET " ++ k)
          = some ⟨r2.st, [(c'', str "Key not found")]⟩)
    ∧ (mapGet st.entries k = none →
        handleMessage dial st c (str "DEL " ++ k) = some ⟨st, [(c, str "Key not found")]⟩
        ∧ handleMessage dial st c' (str "DEL " ++ k)
            = some ⟨st, [(c', str "Key not found")]⟩) := by
  have hne : str "OK" ≠ str "Key not found" := by decide
  refine ⟨?_, ?_, ?_⟩
  · rw [handleMessage_DEL _ _ _ _ hk]
    cases hm : mapGet st.entries k with
    | none =>
      refine ⟨_, rfl, ?_, ?_, hm, ?_, rfl, rfl⟩
      · simp [hne.symm]
      · simp
      · intro k' _; rfl
    | some e =>
      refine ⟨_, rfl, ?_, ?_, ?_, ?_, rfl, rfl⟩
      · simp
      · simp [hne]
      · simp [mapGet_mapDelete]
      · intro k' hk'
        simp [mapGet_mapDelete, hk']
  · refine ⟨_, Result.mk (State.mk
        (mapDelete (mapSet st.entries k ⟨k, v, inferDataType (v.head hv)⟩) k)
        st.notifications st.replicas) [(c', str "OK")],
      handleMessage_SET dial st c k v hk hv, ?_, rfl, ?_⟩
    · rw [handleMessage_DEL _ _ _ _ hk]
      simp [mapGet_mapSet]
    · rw [handleMessage_GET _ _ _ _ hk]
      simp [mapGet_mapDelete]
  · intro hm
    rw [handleMessage_DEL _ _ _ _ hk, handleMessage_DEL _ _ _ _ hk, hm]
    exact ⟨rfl, rfl⟩

theorem C2_del_postcondition_witness :
    ∃ r1 r2, handleMessage (fun _ => none) ⟨[], [], []⟩ 1
          (str "SET " ++ str "key1" ++ str " " ++ str "value1") = some r1
      ∧ handleMessage (fun _ => none) r1.st 1 (str "DEL " ++ str "key1") = some r2
      ∧ r2.writes = [(1, str "OK")]
      ∧ handleMessage (fun _ => none) r2.st 1 (str "GET " ++ str "key1")
          = some ⟨r2.st, [(1, str "Key not found")]⟩ :=
  (C2_del_postcondition (fun _ => none) ⟨[], [], []⟩ 1 1 1 (str "key1") (str "value1")
    (by decide) (by decide)).2.1

/-- The `switch` on the first byte, said with ranges. -/
theorem inferDataType_eq (b : Nat) :
    inferDataType b
      = if b = 123 ∨ b = 91 ∨ b = 34 then str "json"
        else if 48 ≤ b ∧ b ≤ 57 then str "number" else str "string" := by
  unfold inferDataType
  have h : (b = 48 ∨ b = 49 ∨ b = 50 ∨ b = 51 ∨ b = 52 ∨ b = 53 ∨ b = 54
      ∨ b = 55 ∨ b = 56 ∨ b = 57) ↔ (48 ≤ b ∧ b ≤ 57) := by omega
  simp only [h]

/-- C8. Type inference looks at the first byte of the value only: for every
state, every key `k` holding no space and every non-empty value `v`, after
`SET k v` the entry stored under `k` has Key `k`, Value `v` and DataType
`json` when the first byte of `v` is an opening brace, an opening square
bracket or a double quote, `number` when it is an ASCII digit, `string`
otherwise; so the values `42`, the JSON object with field a set to 1, and
`hello` are tagged number, json and string. -/
theorem C8_type_inference (dial : List Byte → Option Conn) (st : State) (c : Conn)
    (k v : List Byte) (hk : 32 ∉ k) (hv : v ≠ []) :
    (∃ r, handleMessage dial st c (str "SET " ++ k ++ str " " ++ v) = some r
      ∧ mapGet r.st.entries k = some ⟨k, v,
          if v.head hv = 123 ∨ v.head hv = 91 ∨ v.head hv = 34 then str "json"
          else if 48 ≤ v.head hv ∧ v.head hv ≤ 57 then str "number"
          else str "string"⟩)
    ∧ (∃ r, handleMessage dial st c (str "SET " ++ k ++ str " " ++ str "42") = some r
      ∧ mapGet r.st.entries k = some ⟨k, str "42", str "number"⟩)
    ∧ (∃ r, handleMessage dial st c
          (str "SET " ++ k ++ str " " ++ str "\x7b\"a\":1\x7d") = some r
      ∧ mapGet r.st.entries k = some ⟨k, str "\x7b\"a\":1\x7d", str "json"⟩)
    ∧ (∃ r, handleMessage dial st c (str "SET " ++ k ++ str " " ++ str "hello") = some r
      ∧ mapGet r.st.entries k = some ⟨k, str "hello", str "string"⟩) := by
  refine ⟨⟨_, handleMessage_SET dial st c k v hk hv, ?_⟩,
    ⟨_, handleMessage_SET dial st c k (str "42") hk (by decide), ?_⟩,
    ⟨_, handleMessage_SET dial st c k (str "\x7b\"a\":1\x7d") hk (by decide), ?_⟩,
    ⟨_, handleMessage_SET dial st c k (str "hello") hk (by decide), ?_⟩⟩
  · simp [mapGet_mapSet, inferDataType_eq]
  · simp [mapGet_mapSet]
    rfl
  · simp [mapGet_mapSet]
    rfl
  · simp [mapGet_mapSet]
    rfl

theorem C8_type_inference_witness :
    ∃ r, handleMessage (fun _ => none) ⟨[], [], []⟩ 1
          (str "SET " ++ str "n" ++ str " " ++ str "7 up") = some r
      ∧ mapGet r.st.entries (str "n") = some ⟨str "n", str "7 up", str "number"⟩ :=
  (C8_type_inference (fun _ => none) ⟨[], [], []⟩ 1 (str "n") (str "7 up")
    (by decide) (by decide)).1

theorem notifySubscribers_eq (st : State) (c : Conn) (k v : List Byte) :
    notifySubscribers st c k v
      = match mapGet st.entries k with
        | some e =>
          if e.Value ≠ v then
            ((subscribers st k).filter (fun s => decide (s ≠ c))).map
              (fun s => (s, str "Key " ++ k ++ str " updated to " ++ v))
          else []
        | none => [] := by
  unfold notifySubscribers subscribers
  cases mapGet st.entries k with
  | none => rfl
  | some e =>
    by_cases h : e.Value = v
    · simp [h]
    · cases hn : mapGet st.notifications k with
      | none => simp [h]
      | some l => simp [h, notifyClients_eq]

theorem handleSet_notifications (st : State) (c : Conn) (args : List (List Byte))
    (r : Result) (h : handleSet st c args = some r) :
    r.st.notifications = st.notifications := by
  unfold handleSet at h
  split at h
  · cases h; rfl
  · cases h1 : args[1]? with
    | none => simp [h1] at h
    | some key =>
      cases h2 : (strings.Join (List.drop 2 args) (str " "))[0]? with
      | none => simp [h1, h2] at h
      | some c0 =>
        simp [h1, h2] at h
        cases h; rfl

theorem handleGet_st (st : State) (c : Conn) (args : List (List Byte))
    (r : Result) (h : handleGet st c args = some r) : r.st = st := by
  unfold handleGet at h
  split at h
  · cases h; rfl
  · cases h1 : args[1]? with
    | none => simp [h1] at h
    | some key =>
      simp [h1] at h
      split at h <;> (cases h; rfl)

theorem handleDel_notifications (st : State) (c : Conn) (args : List (List Byte))
    (r : Result) (h : handleDel st c args = some r) :
    r.st.notifications = st.notifications := by
  unfold handleDel at h
  split at h
  · cases h; rfl
  · cases h1 : args[1]? with
    | none => simp [h1] at h
    | some key =>
      simp [h1] at h
      split at h <;> (cases h; rfl)

theorem handleAddReplica_notifications (dial : List Byte → Option Conn) (st : State)
    (c : Conn) (args : List (List Byte)) (r : Result)
    (h : handleAddReplica dial st c args = some r) :
    r.st.notifications = st.notifications := by
  unfold handleAddReplica at h
  split at h
  · cases h; rfl
  · cases h1 : args[1]? with
    | none => simp [h1] at h
    | some key =>
      simp [h1] at h
      split at h
      · cases h; rfl
      · split at h <;> (cases h; rfl)

/-- What `handleNotify` does to the subscriber lists. -/
theorem handleNotify_subscribers (st : State) (c : Conn) (args : List (List Byte))
    (r : Result) (h : handleNotify st c args = some r) (k : List Byte) :
    subscribers r.st k = subscribers st k
    ∨ (args[1]? = some k ∧ (mapGet st.entries k).isSome = true
        ∧ subscribers r.st k = subscribers st k ++ [c]) := by
  unfold handleNotify at h
  split at h
  · cases h; exact Or.inl rfl
  · cases h1 : args[1]? with
    | none => simp [h1] at h
    | some key =>
      simp [h1] at h
      cases he : mapGet st.entries key with
      | none =>
        simp [he] at h
        cases h; exact Or.inl rfl
      | some e =>
        simp [he] at h
        cases h
        by_cases hk : k = key
        · subst hk
          right
          refine ⟨rfl, by simp [he], ?_⟩
          cases hn : mapGet st.notifications k with
          | none => simp [subscribers, hn, mapGet_mapSet]
          | some l => simp [subscribers, hn, mapGet_mapSet]
        · left
          cases hn : mapGet st.notifications key with
          | none => simp [subscribers, mapGet_mapSet, hk]
          | some l => simp [subscribers, mapGet_mapSet, hk]

/-- Only `NOTIFY` changes a subscriber list, and only by appending its issuer
to the list of a stored key. -/
theorem handleMessage_subscribers (dial : List Byte → Option Conn) (st : State)
    (c : Conn) (msg : List Byte) (r : Result)
    (h : handleMessage dial st c msg = some r) (k : List Byte) :
    subscribers r.st k = subscribers st k
    ∨ ((strings.Split msg 32)[0]? = some COMMAND_NOTIFY
        ∧ (strings.Split msg 32)[1]? = some k
        ∧ (mapGet st.entries k).isSome = true
        ∧ subscribers r.st k = subscribers st k ++ [c]) := by
  unfold handleMessage at h
  cases ha : (strings.Split msg 32)[0]? with
  | none => simp [ha] at h
  | some action =>
    simp only [ha, Option.bind_eq_bind, Option.some_bind] at h
    unfold dispatch at h
    split at h
    · simp [handlePing] at h
      cases h; exact Or.inl rfl
    · split at h
      · left
        simp [subscribers, handleSet_notifications _ _ _ _ h]
      · split at h
        · left
          rw [handleGet_st _ _ _ _ h]
        · split at h
          · left
            simp [subscribers, handleDel_notifications _ _ _ _ h]
          · split at h
            · simp [handleGetKeys] at h
              cases h; exact Or.inl rfl
            · split at h
              · rename_i hn
                rcases handleNotify_subscribers _ _ _ _ h k with h' | ⟨h1, h2, h3⟩
                · exact Or.inl h'
                · exact Or.inr ⟨by rw [hn], h1, h2, h3⟩
              · split at h
                · left
                  simp [subscribers, handleAddReplica_notifications _ _ _ _ _ h]
                · cases h; exact Or.inl rfl

theorem handleMessage_NOTIFY (dial : List Byte → Option Conn) (st : State) (c : Conn)
    (k : List Byte) (hk : 32 ∉ k) :
    handleMessage dial st c (str "NOTIFY " ++ k) = handleNotify st c [COMMAND_NOTIFY, k] := by
  have h0 : (32 : Byte) ∉ ([78, 79, 84, 73, 70, 89] : List Byte) := by decide
  have e : str "NOTIFY " ++ k = [78, 79, 84, 73, 70, 89] ++ 32 :: k := by
    simp [str_NOTIFY_sp]
  unfold handleMessage
  rw [e, split_one_arg _ _ h0 hk]
  simp [dispatch, COMMAND_SET_eq, COMMAND_PING_eq, COMMAND_GET_eq, COMMAND_DEL_eq,
    COMMAND_KEYS_eq, COMMAND_NOTIFY_eq]

/-- C4 (counterexample). The key `k` is stored with value `v1` and has no
subscriber; connection 1 sends `NOTIFY k` twice, which registers it twice
(the handler appends without looking for a duplicate); connection 2 then
sends `SET k v2`.  Connection 1, a single subscribed connection, is written
the message `Key k updated to v2` twice, not once. -/
theorem C4_counterexample :
    ∃ r1 r2 r3,
      handleMessage (fun _ => none)
          ⟨[(str "k", ⟨str "k", str "v1", str "string"⟩)], [], []⟩ 1 (str "NOTIFY k")
        = some r1
      ∧ handleMessage (fun _ => none) r1.st 1 (str "NOTIFY k") = some r2
      ∧ subscribers r2.st (str "k") = [1, 1]
      ∧ handleMessage (fun _ => none) r2.st 2 (str "SET k v2") = some r3
      ∧ r3.writes = [(1, str "Key k updated to v2"), (1, str "Key k updated to v2"),
          (2, str "OK")]
      ∧ writesTo 1 r3.writes = [str "Key k updated to v2", str "Key k updated to v2"] := by
  refine ⟨⟨⟨[(str "k", ⟨str "k", str "v1", str "string"⟩)], [(str "k", [1])], []⟩, []⟩,
    ⟨⟨[(str "k", ⟨str "k", str "v1", str "string"⟩)], [(str "k", [1, 1])], []⟩, []⟩,
    ⟨⟨[(str "k", ⟨str "k", str "v2", str "string"⟩)], [(str "k", [1, 1])], []⟩,
      [(1, str "Key k updated to v2"), (1, str "Key k updated to v2"), (2, str "OK")]⟩,
    ?_, ?_, ?_, ?_, ?_, ?_⟩ <;> decide

/-- C4 (amended). Notification rule, one push per registration: for every
state, every key `k` holding no space, every non-empty value `v` and every
connection `c`, the message `SET k v` from `c` performs these writes.  If `k`
is stored with a value other than `v`: the message `Key k updated to v` once
for each registration under `k` of a connection other than `c`, in
registration order (so a connection registered several times is written
that many times, and `c` is written none), followed by the reply `OK` to
`c`.  If `k` is stored with value `v`, or `k` is not stored: the reply `OK`
to `c` and nothing else.  A connection enters the subscriber list of a key
only through its own `NOTIFY` of that key issued while the key is stored,
and every such `NOTIFY` appends one registration of it, silently. -/
theorem C4_notification_rule (dial : List Byte → Option Conn) (st : State) (c : Conn)
    (k v : List Byte) (hk : 32 ∉ k) (hv : v ≠ []) :
    (∃ r, handleMessage dial st c (str "SET " ++ k ++ str " " ++ v) = some r
      ∧ (∀ e, mapGet st.entries k = some e → e.Value ≠ v →
          r.writes = ((subscribers st k).filter (fun s => decide (s ≠ c))).map
              (fun s => (s, str "Key " ++ k ++ str " updated to " ++ v))
            ++ [(c, str "OK")])
      ∧ (∀ e, mapGet st.entries k = some e → e.Value = v → r.writes = [(c, str "OK")])
      ∧ (mapGet st.entries k = none → r.writes = [(c, str "OK")]))
    ∧ (∀ (msg : List Byte) (c2 : Conn) (r : Result) (k2 : List Byte) (s : Conn),
        handleMessage dial st c2 msg = some r →
        s ∈ subscribers r.st k2 → s ∉ subscribers st k2 →
          s = c2 ∧ (strings.Split msg 32)[0]? = some COMMAND_NOTIFY
            ∧ (strings.Split msg 32)[1]? = some k2
            ∧ (mapGet st.entries k2).isSome = true)
    ∧ ((mapGet st.entries k).isSome = true →
        ∃ r, handleMessage dial st c (str "NOTIFY " ++ k) = some r
          ∧ r.writes = [] ∧ subscribers r.st k = subscribers st k ++ [c]) := by
  refine ⟨⟨_, handleMessage_SET dial st c k v hk hv, ?_, ?_, ?_⟩, ?_, ?_⟩
  · intro e he hne
    simp [notifySubscribers_eq, he, hne]
  · intro e he heq
    simp [notifySubscribers_eq, he, heq]
  · intro he
    simp [notifySubscribers_eq, he]
  · intro msg c2 r k2 s h hin hnot
    rcases handleMessage_subscribers dial st c2 msg r h k2 with h' | ⟨h1, h2, h3, h4⟩
    · rw [h'] at hin
      exact absurd hin hnot
    · rw [h4] at hin
      rcases List.mem_append.mp hin with hm | hm
      · exact absurd hm hnot
      · exact ⟨by simpa using hm, h1, h2, h3⟩
  · intro hs
    rw [handleMessage_NOTIFY _ _ _ _ hk]
    obtain ⟨e, he⟩ := Option.isSome_iff_exists.mp hs
    cases hn : mapGet st.notifications k with
    | none =>
      refine ⟨_, by simp [handleNotify, he, hn]; rfl, rfl, ?_⟩
      simp [subscribers, hn, mapGet_mapSet]
    | some l =>
      refine ⟨_, by simp [handleNotify, he, hn]; rfl, rfl, ?_⟩
      simp [subscribers, hn, mapGet_mapSet]

theorem C4_notification_rule_witness :
    ∃ r, handleMessage (fun _ => none)
          ⟨[(str "k", ⟨str "k", str "v1", str "string"⟩)], [(str "k", [1, 2, 1, 3, 2])], []⟩ 2
          (str "SET " ++ str "k" ++ str " " ++ str "v2") = some r
      ∧ r.writes = [(1, str "Key k updated to v2"), (1, str "Key k updated to v2"),
          (3, str "Key k updated to v2"), (2, str "OK")] := by
  obtain ⟨r, h, h1, _, _⟩ := (C4_notification_rule (fun _ => none)
    ⟨[(str "k", ⟨str "k", str "v1", str "string"⟩)], [(str "k", [1, 2, 1, 3, 2])], []⟩ 2
    (str "k") (str "v2") (by decide) (by decide)).1
  refine ⟨r, h, ?_⟩
  rw [h1 ⟨str "k", str "v1", str "string"⟩ (by decide) (by decide)]
  decide

/-- The message handed to the parser is the received bytes, cut at
`MAX_BUFFER_SIZE`; the record sent on `changes` is the whole buffer. -/
theorem handleClientIter_eq (dial : List Byte → Option Conn) (st : State) (c : Conn)
    (received : List Byte) (hne : received ≠ []) :
    handleClientIter dial st c received
      = LoopStep.continued (handleMessage dial st c (received.take MAX_BUFFER_SIZE))
          (if ((strings.Split (received.take MAX_BUFFER_SIZE) 32)[0]?).getD [] = COMMAND_SET
              ∨ ((strings.Split (received.take MAX_BUFFER_SIZE) 32)[0]?).getD [] = COMMAND_DEL
            then [received.take MAX_BUFFER_SIZE
              ++ List.replicate (MAX_BUFFER_SIZE - min received.length MAX_BUFFER_SIZE) 0]
            else []) := by
  have hlen : 0 < received.length := List.length_pos.mpr hne
  have hmin : min received.length MAX_BUFFER_SIZE ≠ 0 := by
    unfold MAX_BUFFER_SIZE; omega
  have hmod : ¬ (min received.length MAX_BUFFER_SIZE % 65536 > MAX_BUFFER_SIZE) := by
    unfold MAX_BUFFER_SIZE; omega
  have htake : (received.take MAX_BUFFER_SIZE
        ++ List.replicate (MAX_BUFFER_SIZE - min received.length MAX_BUFFER_SIZE) 0).take
          (min received.length MAX_BUFFER_SIZE) = received.take MAX_BUFFER_SIZE := by
    apply List.take_left'
    simp [List.length_take, Nat.min_comm]
  have hsne := Split_ne_nil (received.take MAX_BUFFER_SIZE) 32
  unfold handleClientIter connRead handleMessage
  simp only [hmin, hmod, if_false, htake]
  cases hs : strings.Split (received.take MAX_BUFFER_SIZE) 32 with
  | nil => exact absurd hs hsne
  | cons a rest => simp

/-- C3 (failing input). The six-byte message `SET k ` (a key followed by one
trailing space) passes the check `len(args) < 3`, its value is the empty
string, and the read of `value[0]` is out of range: the handler panics, in
every state and for every connection, instead of answering
`Error: SET command requires a key and a value`. -/
theorem C3_set_empty_value_panics (dial : List Byte → Option Conn) (st : State)
    (c : Conn) :
    strings.Split (str "SET k ") 32 = [str "SET", str "k", []]
    ∧ handleSet st c [str "SET", str "k", []] = none
    ∧ handleMessage dial st c (str "SET k ") = none
    ∧ ∃ changes, handleClientIter dial st c (str "SET k ")
        = LoopStep.continued none changes := by
  have hs : strings.Split (str "SET k ") 32 = [str "SET", str "k", []] := by decide
  have hset : handleSet st c [str "SET", str "k", []] = none := by
    simp [handleSet, strings.Join]
  have hm : handleMessage dial st c (str "SET k ") = none := by
    unfold handleMessage
    rw [hs]
    have e : str "SET" = COMMAND_SET := rfl
    have e' : ¬ (COMMAND_SET = COMMAND_PING) := by decide
    simp only [e, List.getElem?_cons_zero, Option.bind_eq_bind, Option.some_bind, e',
      if_false, if_true]
    rw [← e]; exact hset
  refine ⟨hs, hset, hm, ?_⟩
  rw [handleClientIter_eq _ _ _ _ (by decide)]
  have ht : (str "SET k ").take MAX_BUFFER_SIZE = str "SET k " := by decide
  rw [ht, hm]
  exact ⟨_, rfl⟩

/-- C5 (counterexample). On the empty store the message `DEL k` is answered
`Key not found`, and the message `SET k` is answered with the missing-argument
error, yet each of them has one record sent on the `changes` channel. -/
theorem C5_counterexample :
    (∃ record, handleClientIter (fun _ => none) ⟨[], [], []⟩ 1 (str "DEL k")
        = LoopStep.continued (some ⟨⟨[], [], []⟩, [(1, str "Key not found")]⟩) [record])
    ∧ (∃ record, handleClientIter (fun _ => none) ⟨[], [], []⟩ 1 (str "SET k")
        = LoopStep.continued (some ⟨⟨[], [], []⟩,
            [(1, str "Error: SET command requires a key and a value")]⟩) [record]) := by
  constructor
  · rw [handleClientIter_eq _ _ _ _ (by decide)]
    have ht : (str "DEL k").take MAX_BUFFER_SIZE = str "DEL k" := by decide
    have hs : strings.Split (str "DEL k") 32 = [COMMAND_DEL, str "k"] := by decide
    have hm : handleMessage (fun _ => none) ⟨[], [], []⟩ 1 (str "DEL k")
        = some ⟨⟨[], [], []⟩, [(1, str "Key not found")]⟩ := by decide
    rw [ht, hs, hm]
    rw [if_pos (by decide)]
    exact ⟨_, rfl⟩
  · rw [handleClientIter_eq _ _ _ _ (by decide)]
    have ht : (str "SET k").take MAX_BUFFER_SIZE = str "SET k" := by decide
    have hs : strings.Split (str "SET k") 32 = [COMMAND_SET, str "k"] := by decide
    have hm : handleMessage (fun _ => none) ⟨[], [], []⟩ 1 (str "SET k")
        = some ⟨⟨[], [], []⟩,
            [(1, str "Error: SET command requires a key and a value")]⟩ := by decide
    rw [ht, hs, hm]
    rw [if_pos (by decide)]
    exact ⟨_, rfl⟩

/-- C5 (amended). A change record is sent on the `changes` channel exactly
when the command name of the message (its bytes before the first space, the
message being the received bytes cut at 1024) is `SET` or `DEL`, whatever
the handler then answers and whatever the replica map holds: such a turn of
the loop sends exactly one record, every other turn sends none. -/
theorem C5_change_record_iff_SET_or_DEL (dial : List Byte → Option Conn) (st : State)
    (c : Conn) (received : List Byte) (hne : received ≠ []) :
    ∃ changes, handleClientIter dial st c received
        = LoopStep.continued (handleMessage dial st c (received.take MAX_BUFFER_SIZE)) changes
      ∧ (changes.length = 1 ↔
          ((strings.Split (received.take MAX_BUFFER_SIZE) 32)[0]?).getD [] = COMMAND_SET
          ∨ ((strings.Split (received.take MAX_BUFFER_SIZE) 32)[0]?).getD [] = COMMAND_DEL)
      ∧ (changes.length = 0 ↔
          ¬ (((strings.Split (received.take MAX_BUFFER_SIZE) 32)[0]?).getD [] = COMMAND_SET
          ∨ ((strings.Split (received.take MAX_BUFFER_SIZE) 32)[0]?).getD [] = COMMAND_DEL)) := by
  refine ⟨_, handleClientIter_eq dial st c received hne, ?_, ?_⟩
  · split <;> simp_all
  · split <;> simp_all

theorem C5_change_record_iff_SET_or_DEL_witness :
    ∃ changes, handleClientIter (fun _ => none) ⟨[], [], []⟩ 1 (str "DEL")
        = LoopStep.continued
            (some ⟨⟨[], [], []⟩, [(1, str "Error: DEL command requires a key")]⟩) changes
      ∧ changes.length = 1 := by
  obtain ⟨changes, h, h1, _⟩ := C5_change_record_iff_SET_or_DEL (fun _ => none)
    ⟨[], [], []⟩ 1 (str "DEL") (by decide)
  have ht : (str "DEL").take MAX_BUFFER_SIZE = str "DEL" := by decide
  have hm : handleMessage (fun _ => none) ⟨[], [], []⟩ 1 (str "DEL")
      = some ⟨⟨[], [], []⟩, [(1, str "Error: DEL command requires a key")]⟩ := by decide
  rw [ht, hm] at h
  exact ⟨changes, h, h1.mpr (Or.inr (by decide))⟩

/-- C6 (failing input). For the seven-byte message `SET k v` the record sent
on the `changes` channel is the whole 1024-byte read buffer, the seven bytes
followed by 1017 zero bytes, not the seven bytes; that record is what
`doReplication` writes to a replica, and a server that receives it as a
message stores under `k` the value `v` followed by 1017 zero bytes. -/
theorem C6_record_is_whole_buffer (dial : List Byte → Option Conn) (st : State)
    (c rc : Conn) (addr : List Byte) :
    (∃ h, handleClientIter dial st c (str "SET k v")
        = LoopStep.continued h [str "SET k v" ++ List.replicate 1017 0])
    ∧ (str "SET k v" ++ List.replicate 1017 0 : List Byte).length = 1024
    ∧ doReplication [(addr, rc)] [str "SET k v" ++ List.replicate 1017 0]
        = [(rc, str "SET k v" ++ List.replicate 1017 0)]
    ∧ ∃ r, handleMessage dial st c (str "SET k v" ++ List.replicate 1017 0) = some r
        ∧ mapGet r.st.entries (str "k")
            = some ⟨str "k", str "v" ++ List.replicate 1017 0, str "string"⟩ := by
  have hl : MAX_BUFFER_SIZE - min (str "SET k v").length MAX_BUFFER_SIZE = 1017 := by
    decide
  have hlen : (List.replicate 1017 (0 : Byte)).length = 1017 := List.length_replicate _ _
  generalize hz : List.replicate 1017 (0 : Byte) = zeros at hlen ⊢
  refine ⟨?_, ?_, ?_, ?_⟩
  · rw [handleClientIter_eq _ _ _ _ (by decide)]
    have ht : (str "SET k v").take MAX_BUFFER_SIZE = str "SET k v" := by decide
    have hs : strings.Split (str "SET k v") 32 = [COMMAND_SET, str "k", str "v"] := by
      decide
    rw [ht, hs, hl, hz, if_pos (by decide)]
    exact ⟨_, rfl⟩
  · rw [List.length_append, hlen]
    rfl
  · simp [doReplication, replicateChange]
  · have e : str "SET k v" ++ zeros
        = str "SET " ++ str "k" ++ str " " ++ (str "v" ++ zeros) := by
      have : str "SET k v" = str "SET " ++ str "k" ++ str " " ++ str "v" := by decide
      rw [this]; simp
    have hv : str "v" ++ zeros ≠ [] := by
      have : str "v" = [118] := rfl
      simp [this]
    rw [e]
    refine ⟨_, handleMessage_SET dial st c (str "k") _ (by decide) hv, ?_⟩
    have hh : (str "v" ++ zeros).head hv = 118 := by
      have : str "v" = [118] := rfl
      simp [this]
    simp only [mapGet_mapSet, if_true, hh]
    rfl

theorem handleMessage_ADDREPLICA (dial : List Byte → Option Conn) (st : State) (c : Conn)
    (a : List Byte) (ha : 32 ∉ a) :
    handleMessage dial st c (str "ADDREPLICA " ++ a)
      = handleAddReplica dial st c [COMMAND_ADD_REPLICA, a] := by
  have h0 : (32 : Byte) ∉ ([65, 68, 68, 82, 69, 80, 76, 73, 67, 65] : List Byte) := by
    decide
  have e : str "ADDREPLICA " ++ a = [65, 68, 68, 82, 69, 80, 76, 73, 67, 65] ++ 32 :: a := by
    simp [str_ADDREPLICA_sp]
  unfold handleMessage
  rw [e, split_one_arg _ _ h0 ha]
  simp [dispatch, COMMAND_SET_eq, COMMAND_PING_eq, COMMAND_GET_eq, COMMAND_DEL_eq,
    COMMAND_KEYS_eq, COMMAND_NOTIFY_eq, COMMAND_ADD_REPLICA_eq]

/-- C7 (counterexample). With the address `h:1` registered and the connection
attempt failing, `ADDREPLICA h:1` is answered `Error connecting to replica h:1`,
not `Replica at h:1 already exists`. -/
theorem C7_counterexample :
    handleMessage (fun _ => none) ⟨[], [], [(str "h:1", 9)]⟩ 1 (str "ADDREPLICA h:1")
      = some ⟨⟨[], [], [(str "h:1", 9)]⟩, [(1, str "Error connecting to replica h:1")]⟩ := by
  decide

/-- C7 (amended). The connection attempt comes first.  For every state whose
replica map already holds the address `a` (an address without a space),
`ADDREPLICA a` leaves the state as it was whatever the attempt gives, and
is answered `Replica at a already exists` when the attempt succeeds and
`Error connecting to replica a` when it fails.  For an address that is not
registered, a successful attempt registers its connection under `a` with no
reply, a failed one is answered `Error connecting to replica a` and changes
nothing. -/
theorem C7_add_replica (dial : List Byte → Option Conn) (st : State) (c : Conn)
    (a : List Byte) (ha : 32 ∉ a) :
    (∀ rc, mapGet st.replicas a = some rc →
      handleMessage dial st c (str "ADDREPLICA " ++ a)
        = some ⟨st, [(c, match dial a with
            | some _ => str "Replica at " ++ a ++ str " already exists"
            | none => str "Error connecting to replica " ++ a)]⟩)
    ∧ (mapGet st.replicas a = none →
      handleMessage dial st c (str "ADDREPLICA " ++ a)
        = match dial a with
          | some replicaConn =>
            some ⟨{ st with replicas := mapSet st.replicas a replicaConn }, []⟩
          | none => some ⟨st, [(c, str "Error connecting to replica " ++ a)]⟩) := by
  rw [handleMessage_ADDREPLICA _ _ _ _ ha]
  constructor
  · intro rc hrc
    cases hd : dial a <;> simp [handleAddReplica, hd, hrc]
  · intro hrc
    cases hd : dial a <;> simp [handleAddReplica, hd, hrc]

theorem C7_add_replica_witness :
    handleMessage (fun _ => some 5) ⟨[], [], [(str "h:1", 9)]⟩ 1
        (str "ADDREPLICA " ++ str "h:1")
      = some ⟨⟨[], [], [(str "h:1", 9)]⟩, [(1, str "Replica at h:1 already exists")]⟩ :=
  (C7_add_replica (fun _ => some 5) ⟨[], [], [(str "h:1", 9)]⟩ 1 (str "h:1")
    (by decide)).1 9 (by decide)

theorem Split_length (s : List Byte) (sep : Byte) :
    (strings.Split s sep).length = s.count sep + 1 := by
  induction s with
  | nil => simp [strings.Split]
  | cons b rest ih =>
    have hne := Split_ne_nil rest sep
    by_cases hb : b = sep
    · subst hb
      rw [Split_cons_eq]
      simp [ih]
    · rw [Split_cons_ne _ _ _ hb]
      cases hs : strings.Split rest sep with
      | nil => exact absurd hs hne
      | cons t ts =>
        rw [hs] at ih
        simp only [List.headD_cons, List.tail_cons, List.length_cons] at ih ⊢
        rw [ih, List.count_cons_of_ne (fun e => hb e.symm)]

/-- C9 (counterexample). With `key1` stored, `GET key1` followed by a newline
and `GET  key1` with two spaces are both answered `Key not found`, `PING`
followed by a newline gets no answer at all, and the two-space message
splits into three tokens, the middle one empty. -/
theorem C9_counterexample :
    handleMessage (fun _ => none)
        ⟨[(str "key1", ⟨str "key1", str "value1", str "string"⟩)], [], []⟩ 1
        (str "GET key1\n")
      = some ⟨⟨[(str "key1", ⟨str "key1", str "value1", str "string"⟩)], [], []⟩,
          [(1, str "Key not found")]⟩
    ∧ handleMessage (fun _ => none)
        ⟨[(str "key1", ⟨str "key1", str "value1", str "string"⟩)], [], []⟩ 1
        (str "GET  key1")
      = some ⟨⟨[(str "key1", ⟨str "key1", str "value1", str "string"⟩)], [], []⟩,
          [(1, str "Key not found")]⟩
    ∧ handleMessage (fun _ => none) ⟨[], [], []⟩ 1 (str "PING\n")
      = some ⟨⟨[], [], []⟩, []⟩
    ∧ strings.Split (str "GET  key1") 32 = [str "GET", [], str "key1"] := by
  decide

/-- C9 (amended). The parser splits on the single space byte and on nothing
else: for every message the tokens are its pieces between consecutive
spaces, so there is one more token than the message has spaces, no token
holds a space, and joining the tokens with single spaces gives the message
back; tab, CR and LF are token bytes like any other and empty tokens arise
next to every leading, trailing or repeated space.  `GET k` therefore looks
up the bytes after the space whole, for every `k` without a space: `GET key1`
looks up `key1`, `GET key1` followed by a newline looks up `key1` with the
newline, `GET  key1` with two spaces looks up the empty key; `PING` is
answered `PONG`, `PING` followed by a newline is an unknown command and gets
no answer. -/
theorem C9_split_on_single_space (dial : List Byte → Option Conn) (st : State) (c : Conn)
    (msg k : List Byte) (hk : 32 ∉ k) :
    (strings.Split msg 32).length = msg.count 32 + 1
    ∧ (∀ t ∈ strings.Split msg 32, 32 ∉ t)
    ∧ strings.Join (strings.Split msg 32) (str " ") = msg
    ∧ strings.Split k 32 = [k]
    ∧ handleMessage dial st c (str "GET " ++ k)
        = some ⟨st, [(c, match mapGet st.entries k with
                          | some entry => entry.Value
                          | none => str "Key not found")]⟩
    ∧ strings.Split (str "GET key1") 32 = [str "GET", str "key1"]
    ∧ strings.Split (str "GET key1\n") 32 = [str "GET", str "key1\n"]
    ∧ strings.Split (str "GET  key1") 32 = [str "GET", [], str "key1"]
    ∧ strings.Split (str "a\tb\rc\nd") 32 = [str "a\tb\rc\nd"]
    ∧ handleMessage dial st c (str "PING") = some ⟨st, [(c, str "PONG")]⟩
    ∧ handleMessage dial st c (str "PING\n") = some ⟨st, []⟩ := by
  refine ⟨Split_length msg 32, Split_mem_no_sep msg 32, ?_, Split_no_sep k 32 hk,
    handleMessage_GET dial st c k hk, by decide, by decide, by decide, by decide, ?_, ?_⟩
  · rw [str_space]; exact Join_Split msg 32
  · have hs : strings.Split (str "PING") 32 = [COMMAND_PING] := by decide
    unfold handleMessage
    rw [hs]
    simp [dispatch, handlePing]
    rfl
  · have hs : strings.Split (str "PING\n") 32 = [[80, 73, 78, 71, 10]] := by decide
    unfold handleMessage
    rw [hs]
    simp [dispatch, COMMAND_SET_eq, COMMAND_PING_eq, COMMAND_GET_eq, COMMAND_DEL_eq,
      COMMAND_KEYS_eq, COMMAND_NOTIFY_eq, COMMAND_ADD_REPLICA_eq]

theorem C9_split_on_single_space_witness :
    handleMessage (fun _ => none)
        ⟨[(str "key1\n", ⟨str "key1\n", str "value1", str "string"⟩)], [], []⟩ 1
        (str "GET " ++ str "key1\n")
      = some ⟨⟨[(str "key1\n", ⟨str "key1\n", str "value1", str "string"⟩)], [], []⟩,
          [(1, str "value1")]⟩ :=
  (C9_split_on_single_space (fun _ => none)
    ⟨[(str "key1\n", ⟨str "key1\n", str "value1", str "string"⟩)], [], []⟩ 1
    (str "GET key1\n") (str "key1\n") (by decide)).2.2.2.2.1

end RedisClone
